import Mathlib

/-!
Verification of the CX_Conversational_AI repository (src/rag_groq.py).

The file shallowly embeds the two classes of `rag_groq.py`:

* `UserContextDB` — an insertion-ordered mapping from user id to profile
  (a Python `dict`), modelled as an association list, with JSON
  persistence modelled as serialization to a `Json` tree (`json.dump`
  writes exactly the tree of the value and `json.load` parses it back;
  for string keys and lists of strings this is lossless).
* `SimpleRAG` — document list, conversation history, configured-client
  flag and the user DB.  The external Groq completion call is abstracted
  as an `oracle : List Message → Except String String` argument; the
  `called` field of the result records whether that call was made.

Python truthiness (`if name:`, `x or y`) on optional strings and lists is
modelled by `pyTruthyStr` / `pyTruthyList` / `pyOrStr` / `pyOrList`.
-/

namespace RagGroq

/-- Profile dict stored by `UserContextDB` under a user id
(src/rag_groq.py lines 50-55): keys `user_id`, `name`, `preferences`,
`purchase_history`. -/
structure Profile where
  user_id : String
  name : String
  preferences : List String
  purchase_history : List String
deriving Repr, DecidableEq

/-- Arguments of one `create_or_update_user` call: each of `name`,
`preferences`, `purchase_history` is optional (`None` in Python is
`none`; an explicitly passed empty string or empty list is `some ""` /
`some []`). -/
structure UpsertArgs where
  name : Option String
  preferences : Option (List String)
  purchase_history : Option (List String)
deriving Repr, DecidableEq

/-- Python truthiness of an optional string: `None` and `""` are falsy. -/
def pyTruthyStr : Option String → Bool
  | some s => s != ""
  | none => false

/-- Python truthiness of an optional string list: `None` and `[]` are falsy. -/
def pyTruthyList : Option (List String) → Bool
  | some l => l != []
  | none => false

/-- Python `x or d` for an optional string `x`. -/
def pyOrStr : Option String → String → String
  | some s, d => if s = "" then d else s
  | none, d => d

/-- Python `x or d` for an optional string list `x`. -/
def pyOrList : Option (List String) → List String → List String
  | some l, d => if l = [] then d else l
  | none, d => d

/-- The in-memory `users` dict of `UserContextDB`, as an insertion-ordered
association list from user id to profile. -/
abbrev UsersDB := List (String × Profile)

/-- Embedding of `UserContextDB.get_user` / `self.users.get(user_id)`
(src/rag_groq.py line 78): first (unique) entry with the given key. -/
def dbGet : UsersDB → String → Option Profile
  | [], _ => none
  | e :: rest, user_id => if e.1 == user_id then some e.2 else dbGet rest user_id

/-- The update branch of `create_or_update_user`
(src/rag_groq.py lines 57-62): each field is overwritten only when the
corresponding argument is truthy. -/
def updProfile (p : Profile) (a : UpsertArgs) : Profile :=
  { p with
    name := if pyTruthyStr a.name then a.name.getD p.name else p.name
    preferences :=
      if pyTruthyList a.preferences then a.preferences.getD p.preferences
      else p.preferences
    purchase_history :=
      if pyTruthyList a.purchase_history then a.purchase_history.getD p.purchase_history
      else p.purchase_history }

/-- The creation branch of `create_or_update_user`
(src/rag_groq.py lines 50-55): `name or f"User_{user_id}"`,
`preferences or []`, `purchase_history or []`. -/
def freshProfile (user_id : String) (a : UpsertArgs) : Profile :=
  { user_id := user_id
    name := pyOrStr a.name ("User_" ++ user_id)
    preferences := pyOrList a.preferences []
    purchase_history := pyOrList a.purchase_history [] }

/-- Embedding of `UserContextDB.create_or_update_user`
(src/rag_groq.py lines 30-66).  A Python dict keeps insertion order:
a new key is appended, an existing key is updated in place. -/
def create_or_update_user (db : UsersDB) (user_id : String) (a : UpsertArgs) : UsersDB :=
  match dbGet db user_id with
  | none => db ++ [(user_id, freshProfile user_id a)]
  | some _ => db.map (fun e => if e.1 == user_id then (e.1, updProfile e.2 a) else e)

/-- Embedding of `UserContextDB.delete_user` (src/rag_groq.py lines 84-90). -/
def delete_user (db : UsersDB) (user_id : String) : UsersDB × Bool :=
  match dbGet db user_id with
  | some _ => (db.filter (fun e => e.1 != user_id), true)
  | none => (db, false)

/-- Document entry built by `SimpleRAG.load_pdf`
(src/rag_groq.py lines 168-173): `{name, text, pages, char_count}`. -/
structure Document where
  name : String
  text : String
  pages : Nat
  char_count : Nat
deriving Repr, DecidableEq

/-- One conversation turn or prompt message: `{"role": ..., "content": ...}`. -/
structure Message where
  role : String
  content : String
deriving Repr, DecidableEq

/-- State of a `SimpleRAG` instance (src/rag_groq.py lines 119-143).
`client` records whether a Groq client object was successfully
constructed (`self.client` non-`None`). -/
structure SimpleRAG where
  model : String
  documents : List Document
  conversation_history : List Message
  client : Bool
  user_db : UsersDB
deriving Repr, DecidableEq

/-- Model resolution in `SimpleRAG.__init__` (src/rag_groq.py line 127):
`model or os.getenv("GROQ_MODEL") or "groq-mixtral-v1"`. -/
def resolve_model (modelArg : Option String) (envModel : Option String) : String :=
  pyOrStr modelArg (pyOrStr envModel "groq-mixtral-v1")

/-- Embedding of `SimpleRAG.remove_document` (src/rag_groq.py lines
297-305): pops the first document whose name matches and reports whether
one was found. -/
def remove_document (docs : List Document) (pdf_name : String) : List Document × Bool :=
  match docs with
  | [] => ([], false)
  | d :: ds =>
    if d.name = pdf_name then (ds, true)
    else
      let r := remove_document ds pdf_name
      (d :: r.1, r.2)

/-- Embedding of `SimpleRAG.clear_documents` (src/rag_groq.py lines
307-311): resets both the document list and the conversation history. -/
def clear_documents (rag : SimpleRAG) : SimpleRAG :=
  { rag with documents := [], conversation_history := [] }

/-- Lines built by `SimpleRAG._format_user_context`
(src/rag_groq.py lines 265-271): a name line, then a preferences line if
`preferences` is truthy, then a history line over
`purchase_history[-3:]` if `purchase_history` is truthy. -/
def user_context_lines (p : Profile) : List String :=
  let lines := ["Name: " ++ p.name]
  let lines :=
    if p.preferences ≠ [] then
      lines ++ ["Preferences: " ++ String.intercalate ", " p.preferences]
    else lines
  let lines :=
    if p.purchase_history ≠ [] then
      lines ++ ["Recent interactions: " ++
        String.intercalate ", "
          (p.purchase_history.drop (p.purchase_history.length - 3))]
    else lines
  lines

/-- Embedding of `SimpleRAG._format_user_context`
(src/rag_groq.py lines 255-273). -/
def format_user_context (p : Profile) : String :=
  String.intercalate "\n" (user_context_lines p)

/-- The fixed system prompt of `generate_response`
(src/rag_groq.py lines 211-216). -/
def system_prompt : String :=
  "You are a helpful, personalized assistant. " ++
  "Answer questions based on the provided document context and user context. " ++
  "Tailor your response to the user\x27s preferences and history when relevant. " ++
  "If the answer is not in the document, say \x27The information is not available in the provided document.\x27"

/-- The fixed sentinel returned when no document is loaded
(src/rag_groq.py line 193). -/
def no_documents_message : String :=
  "No PDF loaded. Please upload a PDF first."

/-- The fixed guidance string returned when the client is not configured
(src/rag_groq.py lines 231-235). -/
def not_configured_message : String :=
  "Groq client not configured.\n" ++
  "Set the GROQ_API_KEY environment variable (or add it to your .env) and restart the app.\n" ++
  "Example (PowerShell): $env:GROQ_API_KEY = \x27your_key_here\x27"

/-- Combined document context (src/rag_groq.py line 196):
`"\n\n".join(doc["text"] for doc in documents)`. -/
def doc_context (docs : List Document) : String :=
  String.intercalate "\n\n" (docs.map (fun d => d.text))

/-- The user-context string of `generate_response`
(src/rag_groq.py lines 199-205): empty when `user_id` is falsy, the
formatted profile when one exists, a placeholder line otherwise. -/
def user_context_str (db : UsersDB) (user_id : Option String) : String :=
  match user_id with
  | none => ""
  | some uid =>
    if uid = "" then ""
    else
      match dbGet db uid with
      | some p => format_user_context p
      | none => "User ID: " ++ uid ++ " (no profile data available)"

/-- The composed user message of `generate_response`
(src/rag_groq.py lines 219-222). -/
def build_user_message (rag : SimpleRAG) (query : String) (user_id : Option String) : String :=
  let base := "Document context:\n" ++ doc_context rag.documents
  let ctx := user_context_str rag.user_db user_id
  let base := if ctx ≠ "" then base ++ "\n\nUser Context:\n" ++ ctx else base
  base ++ "\n\nQuestion: " ++ query

/-- The two-entry message list passed to the Groq API
(src/rag_groq.py lines 225-228). -/
def assemble_messages (rag : SimpleRAG) (query : String) (user_id : Option String) :
    List Message :=
  [{ role := "system", content := system_prompt },
   { role := "user", content := build_user_message rag query user_id }]

/-- Result of a `generate_response` call: the post-call state, the
returned string, and whether the external completion call was made. -/
structure GenResult where
  state : SimpleRAG
  response : String
  called : Bool
deriving Repr, DecidableEq

/-- Embedding of `SimpleRAG.generate_response`
(src/rag_groq.py lines 181-253).  The external call
`client.chat.completions.create` together with answer extraction is
abstracted by `oracle` (`.ok answer` for a successful call, `.error e`
for a raised exception); it is consulted only on the branch where the
source actually issues the request. -/
def generate_response (rag : SimpleRAG) (query : String) (user_id : Option String)
    (oracle : List Message → Except String String) : GenResult :=
  if rag.documents = [] then
    { state := rag, response := no_documents_message, called := false }
  else
    let rag1 : SimpleRAG :=
      { rag with conversation_history :=
          rag.conversation_history ++ [{ role := "user", content := query }] }
    let messages := assemble_messages rag query user_id
    if rag.client then
      match oracle messages with
      | Except.ok answer =>
        { state :=
            { rag1 with conversation_history :=
                rag1.conversation_history ++ [{ role := "assistant", content := answer }] }
          response := answer
          called := true }
      | Except.error e =>
        { state := rag1, response := "Error generating response: " ++ e, called := true }
    else
      { state := rag1, response := not_configured_message, called := false }

end RagGroq

namespace RagGroq

/-- C6: after `clear_documents` both the document collection and the
conversation history are empty, regardless of their prior contents. -/
theorem clear_documents_empties_both (rag : SimpleRAG) :
    (clear_documents rag).documents = [] ∧
    (clear_documents rag).conversation_history = [] :=
  ⟨rfl, rfl⟩

/-- C3: with an empty document collection, `generate_response` returns the
fixed no-documents sentinel and never consults the external generator,
for every query and every user id. -/
theorem empty_docs_short_circuit (rag : SimpleRAG) (query : String)
    (user_id : Option String) (oracle : List Message → Except String String)
    (h : rag.documents = []) :
    (generate_response rag query user_id oracle).response = no_documents_message ∧
    (generate_response rag query user_id oracle).called = false := by
  simp [generate_response, h]

/-- Witness for C3 at a concrete empty-collection state. -/
theorem empty_docs_short_circuit_witness :
    (generate_response ⟨"m", [], [], true, []⟩ "q" (some "u")
        (fun _ => Except.ok "ans")).response = no_documents_message ∧
    (generate_response ⟨"m", [], [], true, []⟩ "q" (some "u")
        (fun _ => Except.ok "ans")).called = false :=
  empty_docs_short_circuit _ _ _ _ rfl

/-- C7: with at least one document loaded and no client configured,
`generate_response` returns the fixed configuration-guidance string and
makes no outbound generation call. -/
theorem not_configured_branch (rag : SimpleRAG) (query : String)
    (user_id : Option String) (oracle : List Message → Except String String)
    (hdocs : rag.documents ≠ []) (hclient : rag.client = false) :
    (generate_response rag query user_id oracle).response = not_configured_message ∧
    (generate_response rag query user_id oracle).called = false := by
  simp [generate_response, hdocs, hclient]

/-- Witness for C7 at a concrete one-document, unconfigured state. -/
theorem not_configured_branch_witness :
    (generate_response ⟨"m", [⟨"d.pdf", "T", 1, 1⟩], [], false, []⟩ "q" none
        (fun _ => Except.ok "ans")).response = not_configured_message ∧
    (generate_response ⟨"m", [⟨"d.pdf", "T", 1, 1⟩], [], false, []⟩ "q" none
        (fun _ => Except.ok "ans")).called = false :=
  not_configured_branch _ _ _ _ (by simp) rfl

end RagGroq

namespace RagGroq

/-- C5: `remove_document` deletes exactly the first document whose name
matches and returns `true`; when no name matches it returns `false` and
leaves the collection unchanged (same length and order). -/
theorem remove_document_spec (docs : List Document) (pdf_name : String) :
    ((∀ d ∈ docs, d.name ≠ pdf_name) →
      remove_document docs pdf_name = (docs, false)) ∧
    (∀ l1 d l2, docs = l1 ++ d :: l2 → d.name = pdf_name →
      (∀ e ∈ l1, e.name ≠ pdf_name) →
      remove_document docs pdf_name = (l1 ++ l2, true)) := by
  induction docs with
  | nil =>
    refine ⟨fun _ => rfl, ?_⟩
    intro l1 d l2 heq
    exact absurd heq (by cases l1 <;> simp)
  | cons a ds ih =>
    constructor
    · intro h
      have ha : a.name ≠ pdf_name := h a (List.mem_cons_self a ds)
      have hds := ih.1 (fun d hd => h d (List.mem_cons_of_mem a hd))
      simp [remove_document, ha, hds]
    · intro l1 d l2 heq hd hl1
      cases l1 with
      | nil =>
        simp at heq
        obtain ⟨had, hds⟩ := heq
        subst had; subst hds
        simp [remove_document, hd]
      | cons b l1x =>
        simp at heq
        obtain ⟨hab, hds⟩ := heq
        subst hab
        have hb : a.name ≠ pdf_name := hl1 a (List.mem_cons_self a l1x)
        have hrec := ih.2 l1x d l2 hds hd (fun e he => hl1 e (List.mem_cons_of_mem a he))
        simp [remove_document, hb, hrec]

/-- Witness for C5: removing `"b.pdf"` from three documents removes only
the first match, and a second application on the result (which no longer
holds that name) is the identity. -/
theorem remove_document_spec_witness :
    remove_document [⟨"a.pdf", "A", 1, 1⟩, ⟨"b.pdf", "B", 2, 1⟩, ⟨"c.pdf", "C", 3, 1⟩]
        "b.pdf" =
      ([⟨"a.pdf", "A", 1, 1⟩, ⟨"c.pdf", "C", 3, 1⟩], true) ∧
    remove_document [⟨"a.pdf", "A", 1, 1⟩, ⟨"c.pdf", "C", 3, 1⟩] "b.pdf" =
      ([⟨"a.pdf", "A", 1, 1⟩, ⟨"c.pdf", "C", 3, 1⟩], false) :=
  ⟨(remove_document_spec _ _).2 [⟨"a.pdf", "A", 1, 1⟩] ⟨"b.pdf", "B", 2, 1⟩
      [⟨"c.pdf", "C", 3, 1⟩] rfl rfl (by decide),
   (remove_document_spec _ _).1 (by decide)⟩

/-- C9: the model used by the system is the explicit non-empty argument
when given, otherwise the non-empty environment value when set, otherwise
the built-in default `"groq-mixtral-v1"`. -/
theorem model_resolution_precedence (modelArg envModel : Option String) :
    (∀ s, modelArg = some s → s ≠ "" → resolve_model modelArg envModel = s) ∧
    (pyTruthyStr modelArg = false →
      ∀ s, envModel = some s → s ≠ "" → resolve_model modelArg envModel = s) ∧
    (pyTruthyStr modelArg = false → pyTruthyStr envModel = false →
      resolve_model modelArg envModel = "groq-mixtral-v1") := by
  refine ⟨?_, ?_, ?_⟩
  · intro s hs hne
    subst hs
    simp [resolve_model, pyOrStr, hne]
  · intro hm s hs hne
    subst hs
    cases modelArg with
    | none => simp [resolve_model, pyOrStr, hne]
    | some t =>
      simp [pyTruthyStr] at hm
      simp [resolve_model, pyOrStr, hm, hne]
  · intro hm he
    cases modelArg with
    | none =>
      cases envModel with
      | none => rfl
      | some u =>
        simp [pyTruthyStr] at he
        simp [resolve_model, pyOrStr, he]
    | some t =>
      simp [pyTruthyStr] at hm
      cases envModel with
      | none => simp [resolve_model, pyOrStr, hm]
      | some u =>
        simp [pyTruthyStr] at he
        simp [resolve_model, pyOrStr, hm, he]

/-- Witness for C9: an explicit argument wins over a set environment value. -/
theorem model_resolution_precedence_witness :
    resolve_model (some "llama3-70b") (some "env-model") = "llama3-70b" :=
  (model_resolution_precedence (some "llama3-70b") (some "env-model")).1
    "llama3-70b" rfl (by decide)

end RagGroq

namespace RagGroq

/-- C4: when a profile has more than three history entries, the last line
of the formatted user context is the history line, built by joining with
`", "` exactly the three-element suffix `purchase_history[-3:]` of the
history (so only the last three entries appear there, in their original
relative order). -/
theorem history_line_last_three (p : Profile) (h : 3 < p.purchase_history.length) :
    (user_context_lines p).getLast? =
      some ("Recent interactions: " ++
        String.intercalate ", "
          (p.purchase_history.drop (p.purchase_history.length - 3))) ∧
    (p.purchase_history.drop (p.purchase_history.length - 3)).length = 3 ∧
    p.purchase_history.take (p.purchase_history.length - 3) ++
        p.purchase_history.drop (p.purchase_history.length - 3) =
      p.purchase_history := by
  refine ⟨?_, ?_, List.take_append_drop _ _⟩
  · have hne : p.purchase_history ≠ [] := by
      intro he
      rw [he] at h
      simp at h
    by_cases hp : p.preferences = [] <;>
      simp [user_context_lines, hne, hp, List.getLast?_concat]
  · have := List.length_drop (p.purchase_history.length - 3) p.purchase_history
    omega

/-- Witness for C4 at a four-entry history. -/
theorem history_line_last_three_witness :
    (user_context_lines ⟨"u1", "Ann", [], ["a", "b", "c", "d"]⟩).getLast? =
      some "Recent interactions: b, c, d" ∧
    ((["a", "b", "c", "d"] : List String).drop (4 - 3)).length = 3 ∧
    (["a", "b", "c", "d"] : List String).take (4 - 3) ++
        (["a", "b", "c", "d"] : List String).drop (4 - 3) =
      ["a", "b", "c", "d"] :=
  history_line_last_three ⟨"u1", "Ann", [], ["a", "b", "c", "d"]⟩ (by decide)

end RagGroq

namespace RagGroq

/-- C10: whenever at least one document is loaded, `generate_response`
appends the user turn to the conversation history before any generation
attempt (the extended history is a prefix of the final one on every
branch), and on the two failure branches — client unconfigured, or the
external call raising — the final history is exactly the old history plus
that user turn, with no assistant turn appended. -/
theorem history_mutation_on_failure (rag : SimpleRAG) (query : String)
    (user_id : Option String) (oracle : List Message → Except String String)
    (hdocs : rag.documents ≠ []) :
    ((rag.conversation_history ++ [{ role := "user", content := query }]) <+:
      (generate_response rag query user_id oracle).state.conversation_history) ∧
    (rag.client = false →
      (generate_response rag query user_id oracle).state.conversation_history =
        rag.conversation_history ++ [{ role := "user", content := query }]) ∧
    (∀ e, oracle (assemble_messages rag query user_id) = Except.error e →
      (generate_response rag query user_id oracle).state.conversation_history =
        rag.conversation_history ++ [{ role := "user", content := query }]) := by
  by_cases hc : rag.client
  · cases ho : oracle (assemble_messages rag query user_id) with
    | ok answer =>
      refine ⟨?_, ?_, ?_⟩
      · exact ⟨[{ role := "assistant", content := answer }],
          by simp [generate_response, hdocs, hc, ho]⟩
      · intro hfalse
        rw [hc] at hfalse
        exact absurd hfalse (by simp)
      · intro e he
        exact absurd he (by simp)
    | error e =>
      refine ⟨?_, ?_, ?_⟩
      · exact ⟨[], by simp [generate_response, hdocs, hc, ho]⟩
      · intro hfalse
        rw [hc] at hfalse
        exact absurd hfalse (by simp)
      · intro ex hex
        simp [generate_response, hdocs, hc, ho]
  · have hcf : rag.client = false := by simpa using hc
    refine ⟨⟨[], by simp [generate_response, hdocs, hcf]⟩, ?_, ?_⟩
    · intro _
      simp [generate_response, hdocs, hcf]
    · intro e _
      simp [generate_response, hdocs, hcf]

/-- Witness for C10: with one document, no configured client, and an
oracle that would fail anyway, the user turn is recorded and no assistant
turn follows it. -/
theorem history_mutation_on_failure_witness :
    (generate_response ⟨"m", [⟨"d.pdf", "T", 1, 1⟩], [], false, []⟩ "q" none
        (fun _ => Except.error "boom")).state.conversation_history =
      [] ++ [{ role := "user", content := "q" }] :=
  (history_mutation_on_failure ⟨"m", [⟨"d.pdf", "T", 1, 1⟩], [], false, []⟩ "q" none
      (fun _ => Except.error "boom") (by simp)).2.1 rfl

end RagGroq

namespace RagGroq

/-- The C8 scenario state: user `"u1"` upserted with name `"Ann"`,
preferences `["x", "y"]`, history `["a", "b", "c", "d"]`, and a single
loaded document whose text is `"T"`. -/
def rag8 : SimpleRAG :=
  { model := "m"
    documents := [⟨"doc.pdf", "T", 1, 1⟩]
    conversation_history := []
    client := true
    user_db := create_or_update_user [] "u1"
      ⟨some "Ann", some ["x", "y"], some ["a", "b", "c", "d"]⟩ }

/-- C8: in the concrete scenario, the assembled messages are exactly the
two-entry sequence system-then-user, and the user content is a
concatenation exhibiting `"T"`, then `"x, y"`, then `"b, c, d"` (the last
three history entries), then `"What is x?"`, in that relative order. -/
theorem assembled_prompt_scenario :
    assemble_messages rag8 "What is x?" (some "u1") =
      [{ role := "system", content := system_prompt },
       { role := "user", content :=
          "Document context:\n" ++ "T" ++
          "\n\nUser Context:\nName: Ann\nPreferences: " ++ "x, y" ++
          "\nRecent interactions: " ++ "b, c, d" ++
          "\n\nQuestion: " ++ "What is x?" }] := by
  rfl

end RagGroq

namespace RagGroq

/-- JSON trees, the values handled by `json.dump` / `json.load`
(src/rag_groq.py lines 92-108).  `json.dump` writes exactly the tree of
the dumped value and `json.load` parses the text back to the same tree,
so the file contents are modelled by the tree itself. -/
inductive Json where
  | str : String → Json
  | num : Int → Json
  | arr : List Json → Json
  | obj : List (String × Json) → Json
deriving Repr

/-- JSON tree of one profile dict, as `json.dump` serializes it. -/
def encodeProfile (p : Profile) : Json :=
  Json.obj
    [("user_id", Json.str p.user_id),
     ("name", Json.str p.name),
     ("preferences", Json.arr (p.preferences.map Json.str)),
     ("purchase_history", Json.arr (p.purchase_history.map Json.str))]

/-- Embedding of `UserContextDB.save_to_file` (src/rag_groq.py lines
92-98): on success the file holds the JSON tree of the whole `users`
dict, keys in insertion order. -/
def save_to_file (users : UsersDB) : Json :=
  Json.obj (users.map (fun e => (e.1, encodeProfile e.2)))

/-- Key lookup in a JSON object, as Python dict access on the parse result. -/
def jGet (fields : List (String × Json)) (k : String) : Option Json :=
  (fields.find? (fun e => e.1 == k)).map (fun e => e.2)

/-- Reads a JSON array of strings back as a string list. -/
def decodeStrList : List Json → Option (List String)
  | [] => some []
  | Json.str s :: rest => (decodeStrList rest).map (fun l => s :: l)
  | _ => none

/-- Reads one profile dict back from its JSON tree (the shape
`save_to_file` writes and the rest of the code reads field by field). -/
def decodeProfile : Json → Option Profile
  | Json.obj fields =>
    match jGet fields "user_id", jGet fields "name",
        jGet fields "preferences", jGet fields "purchase_history" with
    | some (Json.str u), some (Json.str n), some (Json.arr ps), some (Json.arr hs) =>
      match decodeStrList ps, decodeStrList hs with
      | some pl, some hl => some ⟨u, n, pl, hl⟩
      | _, _ => none
    | _, _, _, _ => none
  | _ => none

/-- Reads the entries of the top-level users object back. -/
def decodeEntries : List (String × Json) → Option UsersDB
  | [] => some []
  | (k, v) :: rest =>
    match decodeProfile v, decodeEntries rest with
    | some p, some ps => some ((k, p) :: ps)
    | _, _ => none

/-- Embedding of `UserContextDB.load_from_file` (src/rag_groq.py lines
100-108): on success the in-memory `users` mapping becomes the parsed
tree of the file, read back into profiles. -/
def load_from_file : Json → Option UsersDB
  | Json.obj entries => decodeEntries entries
  | _ => none

theorem decodeStrList_map (l : List String) :
    decodeStrList (l.map Json.str) = some l := by
  induction l with
  | nil => rfl
  | cons s rest ih => simp [decodeStrList, ih]

theorem decodeProfile_encodeProfile (p : Profile) :
    decodeProfile (encodeProfile p) = some p := by
  simp [encodeProfile, decodeProfile, jGet, List.find?, decodeStrList_map]

theorem decodeEntries_encode (users : UsersDB) :
    decodeEntries (users.map (fun e => (e.1, encodeProfile e.2))) = some users := by
  induction users with
  | nil => rfl
  | cons e rest ih =>
    obtain ⟨k, p⟩ := e
    simp [decodeEntries, decodeProfile_encodeProfile, ih]

/-- C2: persistence round-trip — reading back the file written by
`save_to_file` reconstructs exactly the original in-memory mapping of
ids to profiles, for every finite set of profiles. -/
theorem save_load_round_trip (users : UsersDB) :
    load_from_file (save_to_file users) = some users := by
  simp [save_to_file, load_from_file, decodeEntries_encode]

end RagGroq

namespace RagGroq

/-- Last truthy value in a sequence of optional Python values: the value
kept by repeatedly executing `if x: field = x` left to right. -/
def pyLast (truthy : Option α → Bool) (l : List (Option α)) : Option α :=
  l.foldl (fun acc o => if truthy o then o else acc) none

theorem pyOrStr_eq (o : Option String) (d : String) :
    pyOrStr o d = if pyTruthyStr o then o.getD d else d := by
  cases o with
  | none => rfl
  | some s =>
    by_cases hs : s = ""
    · simp [pyOrStr, pyTruthyStr, hs]
    · simp [pyOrStr, pyTruthyStr, hs]

theorem pyOrList_eq (o : Option (List String)) (d : List String) :
    pyOrList o d = if pyTruthyList o then o.getD d else d := by
  cases o with
  | none => rfl
  | some l =>
    by_cases hl : l = []
    · simp [pyOrList, pyTruthyList, hl]
    · simp [pyOrList, pyTruthyList, hl]

theorem freshProfile_eq (uid : String) (a : UpsertArgs) :
    freshProfile uid a = updProfile ⟨uid, "User_" ++ uid, [], []⟩ a := by
  simp [freshProfile, updProfile, pyOrStr_eq, pyOrList_eq]

theorem dbGet_append_fresh (db : UsersDB) (uid : String) (p : Profile)
    (h : dbGet db uid = none) :
    dbGet (db ++ [(uid, p)]) uid = some p := by
  revert h
  induction db with
  | nil => intro _; simp [dbGet]
  | cons e rest ih =>
    intro h
    cases he : (e.1 == uid) with
    | true => simp [dbGet, he] at h
    | false =>
      simp [dbGet, he] at h ⊢
      exact ih h

theorem dbGet_map_upd (db : UsersDB) (uid : String) (a : UpsertArgs) :
    dbGet (db.map (fun e => if e.1 == uid then (e.1, updProfile e.2 a) else e)) uid =
      (dbGet db uid).map (fun p => updProfile p a) := by
  induction db with
  | nil => rfl
  | cons e rest ih =>
    cases he : (e.1 == uid) with
    | true => simp [dbGet, he]
    | false =>
      have hcond : ¬((e.1 == uid) = true) := by simp [he]
      simp only [List.map_cons]
      rw [if_neg hcond]
      simp only [dbGet]
      rw [if_neg hcond, if_neg hcond]
      exact ih

theorem dbGet_create_fresh (db : UsersDB) (uid : String) (a : UpsertArgs)
    (h : dbGet db uid = none) :
    dbGet (create_or_update_user db uid a) uid = some (freshProfile uid a) := by
  unfold create_or_update_user
  rw [h]
  exact dbGet_append_fresh db uid _ h

theorem dbGet_create_some (db : UsersDB) (uid : String) (a : UpsertArgs) (p : Profile)
    (h : dbGet db uid = some p) :
    dbGet (create_or_update_user db uid a) uid = some (updProfile p a) := by
  unfold create_or_update_user
  rw [h, dbGet_map_upd, h]
  rfl

theorem dbGet_foldl_create (uid : String) (args : List UpsertArgs) :
    ∀ (db : UsersDB) (p : Profile), dbGet db uid = some p →
      dbGet (args.foldl (fun d a => create_or_update_user d uid a) db) uid =
        some (args.foldl updProfile p) := by
  induction args with
  | nil => intro db p h; simpa using h
  | cons a rest ih =>
    intro db p h
    simp only [List.foldl_cons]
    exact ih _ _ (dbGet_create_some db uid a p h)

theorem foldl_truthy_acc (truthy : Option α → Bool) (htn : truthy none = false)
    (l : List (Option α)) :
    ∀ acc, l.foldl (fun a o => if truthy o then o else a) acc =
      Option.elim (l.foldl (fun a o => if truthy o then o else a) none) acc some := by
  induction l with
  | nil => intro acc; rfl
  | cons o rest ih =>
    intro acc
    simp only [List.foldl_cons]
    rw [ih, ih (if truthy o then o else none)]
    cases hfold : rest.foldl (fun a o => if truthy o then o else a) none with
    | some x => rfl
    | none =>
      cases ht : truthy o with
      | false => simp [ht]
      | true =>
        cases o with
        | none => rw [htn] at ht; exact absurd ht (by simp)
        | some x => simp [ht]

theorem foldl_upd_field (truthy : Option α → Bool) (htn : truthy none = false)
    (sel : UpsertArgs → Option α) (fld : Profile → α)
    (hupd : ∀ p a, fld (updProfile p a) =
      if truthy (sel a) then (sel a).getD (fld p) else fld p)
    (args : List UpsertArgs) :
    ∀ p : Profile, fld (args.foldl updProfile p) =
      (pyLast truthy (args.map sel)).getD (fld p) := by
  induction args with
  | nil => intro p; rfl
  | cons a rest ih =>
    intro p
    simp only [List.foldl_cons, List.map_cons, pyLast]
    rw [ih (updProfile p a),
      foldl_truthy_acc truthy htn (rest.map sel) (if truthy (sel a) then sel a else none)]
    cases hfold : (rest.map sel).foldl (fun x o => if truthy o then o else x) none with
    | some x => simp [pyLast, hfold]
    | none =>
      have hl : pyLast truthy (rest.map sel) = none := by
        simpa [pyLast] using hfold
      rw [hl, hupd]
      cases ht : truthy (sel a) with
      | false => simp [ht]
      | true => simp [ht]

theorem foldl_upd_user_id (args : List UpsertArgs) :
    ∀ p : Profile, (args.foldl updProfile p).user_id = p.user_id := by
  induction args with
  | nil => intro p; rfl
  | cons a rest ih => intro p; exact ih (updProfile p a)

/-- C1: starting from a state where `uid` has no profile, after any
non-empty sequence of `create_or_update_user` calls for `uid`, `get(uid)`
returns the profile whose `name`, `preferences` and `purchase_history`
are the last truthy (non-empty, non-`None`) values supplied for each
field across the calls, defaulting to the placeholder `"User_" ++ uid`,
`[]` and `[]` when no truthy value was ever supplied. -/
theorem upsert_merge_semantics (db : UsersDB) (uid : String) (args : List UpsertArgs)
    (hfresh : dbGet db uid = none) (hne : args ≠ []) :
    dbGet (args.foldl (fun d a => create_or_update_user d uid a) db) uid =
      some { user_id := uid
             name := (pyLast pyTruthyStr (args.map (fun x => x.name))).getD ("User_" ++ uid)
             preferences :=
               (pyLast pyTruthyList (args.map (fun x => x.preferences))).getD []
             purchase_history :=
               (pyLast pyTruthyList (args.map (fun x => x.purchase_history))).getD [] } := by
  obtain ⟨a, rest, rfl⟩ : ∃ a rest, args = a :: rest := by
    cases args with
    | nil => exact absurd rfl hne
    | cons a rest => exact ⟨a, rest, rfl⟩
  simp only [List.foldl_cons]
  have h1 : dbGet (create_or_update_user db uid a) uid =
      some (updProfile ⟨uid, "User_" ++ uid, [], []⟩ a) := by
    rw [dbGet_create_fresh db uid a hfresh, freshProfile_eq]
  rw [dbGet_foldl_create uid rest _ _ h1]
  congr 1
  have hfold : rest.foldl updProfile (updProfile ⟨uid, "User_" ++ uid, [], []⟩ a) =
      (a :: rest).foldl updProfile ⟨uid, "User_" ++ uid, [], []⟩ := rfl
  rw [hfold]
  have e1 : ((a :: rest).foldl updProfile ⟨uid, "User_" ++ uid, [], []⟩).user_id = uid :=
    foldl_upd_user_id (a :: rest) ⟨uid, "User_" ++ uid, [], []⟩
  have e2 : ((a :: rest).foldl updProfile ⟨uid, "User_" ++ uid, [], []⟩).name =
      (pyLast pyTruthyStr ((a :: rest).map (fun x => x.name))).getD ("User_" ++ uid) :=
    foldl_upd_field pyTruthyStr rfl (fun x => x.name) (fun p => p.name)
      (fun _ _ => rfl) (a :: rest) ⟨uid, "User_" ++ uid, [], []⟩
  have e3 : ((a :: rest).foldl updProfile ⟨uid, "User_" ++ uid, [], []⟩).preferences =
      (pyLast pyTruthyList ((a :: rest).map (fun x => x.preferences))).getD [] :=
    foldl_upd_field pyTruthyList rfl (fun x => x.preferences) (fun p => p.preferences)
      (fun _ _ => rfl) (a :: rest) ⟨uid, "User_" ++ uid, [], []⟩
  have e4 : ((a :: rest).foldl updProfile ⟨uid, "User_" ++ uid, [], []⟩).purchase_history =
      (pyLast pyTruthyList ((a :: rest).map (fun x => x.purchase_history))).getD [] :=
    foldl_upd_field pyTruthyList rfl (fun x => x.purchase_history)
      (fun p => p.purchase_history) (fun _ _ => rfl) (a :: rest) ⟨uid, "User_" ++ uid, [], []⟩
  calc
    (a :: rest).foldl updProfile ⟨uid, "User_" ++ uid, [], []⟩ =
        ⟨((a :: rest).foldl updProfile ⟨uid, "User_" ++ uid, [], []⟩).user_id,
         ((a :: rest).foldl updProfile ⟨uid, "User_" ++ uid, [], []⟩).name,
         ((a :: rest).foldl updProfile ⟨uid, "User_" ++ uid, [], []⟩).preferences,
         ((a :: rest).foldl updProfile ⟨uid, "User_" ++ uid, [], []⟩).purchase_history⟩ := rfl
    _ = _ := by rw [e1, e2, e3, e4]

/-- Witness for C1: three upserts on a fresh id — a creating call with
only a name, a call updating preferences with an empty (ignored) name,
and a call updating only the history — merge to the expected profile. -/
theorem upsert_merge_semantics_witness :
    dbGet
      (([⟨some "Ann", none, none⟩,
         ⟨some "", some ["veg", "coffee"], none⟩,
         ⟨none, none, some ["tea"]⟩] : List UpsertArgs).foldl
        (fun d a => create_or_update_user d "u1" a) []) "u1" =
      some { user_id := "u1", name := "Ann", preferences := ["veg", "coffee"],
             purchase_history := ["tea"] } :=
  upsert_merge_semantics [] "u1"
    [⟨some "Ann", none, none⟩,
     ⟨some "", some ["veg", "coffee"], none⟩,
     ⟨none, none, some ["tea"]⟩] rfl (by simp)

end RagGroq
